import Mathlib

/-!
Shallow embedding of the BassAid fretboard component
(`src/source/PluginEditor.cpp`).  Float values are modelled by rationals,
`juce` geometry types by explicit records, and the stateful
`FretboardComponent` by a state record threaded through the operations.
-/

namespace BassAid

/-- Model of `juce::jlimit` on rationals: clamp a value into `[lo, hi]`. -/
def jlimitQ (lo hi v : ℚ) : ℚ :=
  if v < lo then lo else if hi < v then hi else v

/-- Model of `juce::jlimit` on integers (used for the fret clamp). -/
def jlimitI (lo hi v : ℤ) : ℤ :=
  if v < lo then lo else if hi < v then hi else v

/-- Model of `std::round` (exact on the nonnegative coordinates it is applied to). -/
def roundQ (q : ℚ) : ℚ := ((round q : ℤ) : ℚ)

/-- A point with float coordinates, over the rationals. -/
structure PointQ where
  x : ℚ
  y : ℚ
deriving DecidableEq

/-- A `juce::Rectangle<float>` given by origin and size, over the rationals. -/
structure RectQ where
  x : ℚ
  y : ℚ
  w : ℚ
  h : ℚ
deriving DecidableEq

/-- The all-zero rectangle (a default-constructed `juce::Rectangle`). -/
def rect0 : RectQ := ⟨0, 0, 0, 0⟩

namespace RectQ

/-- Model of `getCentreY`. -/
def centreY (r : RectQ) : ℚ := r.y + r.h / 2

/-- Model of `getCentre`. -/
def centre (r : RectQ) : PointQ := ⟨r.x + r.w / 2, r.y + r.h / 2⟩

/-- Model of `juce::Rectangle::contains (Point)`: inclusive on the left/top
edges, exclusive on the right/bottom edges. -/
def containsP (r : RectQ) (p : PointQ) : Bool :=
  decide (r.x ≤ p.x ∧ r.y ≤ p.y ∧ p.x < r.x + r.w ∧ p.y < r.y + r.h)

/-- Model of `reduced (dx, dy)`. -/
def reduced (r : RectQ) (dx dy : ℚ) : RectQ :=
  ⟨r.x + dx, r.y + dy, r.w - 2 * dx, r.h - 2 * dy⟩

/-- Model of `expanded (d)`. -/
def expanded (r : RectQ) (d : ℚ) : RectQ :=
  ⟨r.x - d, r.y - d, r.w + 2 * d, r.h + 2 * d⟩

/-- Model of `withTrimmedLeft`. -/
def withTrimmedLeft (r : RectQ) (d : ℚ) : RectQ := ⟨r.x + d, r.y, r.w - d, r.h⟩

/-- Model of `withY`. -/
def withY (r : RectQ) (ny : ℚ) : RectQ := ⟨r.x, ny, r.w, r.h⟩

/-- Model of `withHeight`. -/
def withHeight (r : RectQ) (nh : ℚ) : RectQ := ⟨r.x, r.y, r.w, nh⟩

end RectQ

/-- The empty string, used as the (unreachable) out-of-bounds default when
indexing the note-name table. -/
def noNote : String := ""

/-- The 12 chromatic note names (`kNoteNames`). -/
def kNoteNames : List String :=
  ["C", "C#", "D", "D#", "E", "F"] ++ ["F#", "G", "G#", "A", "A#", "B"]

/-- Model of `midiToNote`: clamp to nonnegative, then chromatic name at the
pitch class plus the octave number `n / 12 - 1`. -/
def midiToNote (midi : ℤ) : String :=
  let n : ℤ := max 0 midi
  let idx : ℕ := (n % 12).toNat
  let oct : ℤ := n / 12 - 1
  List.getD kNoteNames idx noNote ++ toString oct

/-- Model of `baseMidiForString`: base MIDI pitch of each GUI row. -/
def baseMidiForString (stringIdx : ℤ) : ℤ :=
  if stringIdx = 0 then 43
  else if stringIdx = 1 then 38
  else if stringIdx = 2 then 33
  else 28

/-- Model of `easeOutCubic01`: cubic ease-out with the input clamped to the
unit interval. -/
def easeOutCubic01 (t : ℚ) : ℚ :=
  let u := jlimitQ 0 1 t
  1 - (1 - u) ^ 3

/-- The alpha that `paint` computes for a highlight, as a function of the
elapsed time since its creation and of its duration. -/
def highlightOpacity (elapsed duration : ℚ) : ℚ :=
  1 - easeOutCubic01 (elapsed / duration)

/-- The geometry fields of `FretboardComponent` that `rebuildStatic` recomputes. -/
structure Geometry where
  boardBounds : RectQ
  rowRects : List RectQ
  openCircles : List RectQ
  openRadius : ℚ
deriving DecidableEq

/-- One string row, as laid out in `rebuildStatic`. -/
def rowRect (boardBounds : RectQ) (s : ℕ) : RectQ :=
  let rowH := boardBounds.h / 4
  let r := (boardBounds.withY (boardBounds.y + s * rowH)).withHeight rowH
  r.reduced 0 (min 3 (r.h * (12 / 100)))

/-- One open-string circle's bounding rectangle, as laid out in
`rebuildStatic` (gap of 12 px left of the nut). -/
def openCircle (boardBounds : RectQ) (openRadius : ℚ) (s : ℕ) : RectQ :=
  let cy := (rowRect boardBounds s).centreY
  let nutX := roundQ boardBounds.x + 1 / 2
  let cx := nutX - (openRadius + 12)
  ⟨cx - openRadius, cy - openRadius, 2 * openRadius, 2 * openRadius⟩

/-- The geometry `rebuildStatic` computes for a drawable area of size `w × h`
(margin 16, open-circle pad 64, wood-edge thickness 10). -/
def computeGeometry (w h : ℚ) : Geometry :=
  let margin : ℚ := 16
  let leftOpenPad : ℚ := 64
  let edgeThickness : ℚ := 10
  let outer := (RectQ.mk 0 0 w h).reduced margin margin
  let boardOuter := outer.withTrimmedLeft leftOpenPad
  let boardBounds := boardOuter.reduced edgeThickness edgeThickness
  let openRadius := jlimitQ 12 22 (boardBounds.h * (65 / 1000))
  { boardBounds := boardBounds
    rowRects := [rowRect boardBounds 0, rowRect boardBounds 1,
                 rowRect boardBounds 2, rowRect boardBounds 3]
    openCircles := [openCircle boardBounds openRadius 0, openCircle boardBounds openRadius 1,
                    openCircle boardBounds openRadius 2, openCircle boardBounds openRadius 3]
    openRadius := openRadius }

/-- One highlight record (the `Animation` struct). -/
structure Animation where
  t0 : ℚ
  duration : ℚ
  stringIdx : ℤ
  fretIdx : ℤ
  isOpen : Bool
  noteName : String
  center : PointQ
  bounds : RectQ
deriving DecidableEq

/-- Observable effects emitted by `triggerNote`, in the order they occur. -/
inductive Event where
  | callback (noteName : String)
  | highlightAppended (a : Animation)
  | repaintRect (r : RectQ)
deriving DecidableEq

/-- The mutable state of `FretboardComponent`.  The static layer is tracked
by the size it was rendered at (`none` = null image); `rebuilds` is a ghost
counter of how many static-layer rebuilds have been performed. -/
structure FretState where
  width : ℤ
  height : ℤ
  geom : Geometry
  staticLayer : Option (ℤ × ℤ)
  active : List Animation
  rebuilds : ℕ
deriving DecidableEq

/-- Default-constructed geometry: every member starts at zero. -/
def geometry0 : Geometry :=
  { boardBounds := rect0, rowRects := [rect0, rect0, rect0, rect0],
    openCircles := [rect0, rect0, rect0, rect0], openRadius := 0 }

/-- A freshly constructed component with the given size, before any
size-driven layout pass or paint. -/
def initState (w h : ℤ) : FretState :=
  { width := w, height := h, geom := geometry0, staticLayer := none,
    active := [], rebuilds := 0 }

/-- Model of `rebuildStatic`: skip degenerate sizes entirely, otherwise
recompute the geometry and the cached static layer for the current size. -/
def rebuildStatic (s : FretState) : FretState :=
  if s.width ≤ 2 ∨ s.height ≤ 2 then s
  else
    { s with geom := computeGeometry (s.width : ℚ) (s.height : ℚ),
             staticLayer := some (s.width, s.height),
             rebuilds := s.rebuilds + 1 }

/-- Model of `resized`: it calls `rebuildStatic` unconditionally. -/
def resized (s : FretState) : FretState := rebuildStatic s

/-- The highlight record `triggerNote` constructs for an in-range position:
centre from the open circle when `fretIdx = 0`, otherwise the fret-cell
midpoint and the row centre; bounds of side `2 * openRadius` expanded by 3. -/
def mkHighlight (g : Geometry) (now : ℚ) (stringIdx fretIdx : ℤ) : Animation :=
  let noteName := midiToNote (baseMidiForString stringIdx + fretIdx)
  let center : PointQ :=
    if fretIdx = 0 then (List.getD g.openCircles stringIdx.toNat rect0).centre
    else
      let cw := g.boardBounds.w / 12
      let cx := g.boardBounds.x + ((fretIdx : ℚ) - 1 / 2) * cw
      let cy := (List.getD g.rowRects stringIdx.toNat rect0).centreY
      ⟨cx, cy⟩
  let r : RectQ := ⟨center.x - g.openRadius, center.y - g.openRadius,
                    2 * g.openRadius, 2 * g.openRadius⟩
  { t0 := now, duration := 9 / 5, stringIdx := stringIdx, fretIdx := fretIdx,
    isOpen := decide (fretIdx = 0), noteName := noteName, center := center,
    bounds := r.expanded 3 }

/-- Model of `FretboardComponent::triggerNote`.  Returns the new state and
the ordered list of observable effects; `hasCallback` models whether
`onNotePlayed` is registered. -/
def triggerNote (now : ℚ) (hasCallback : Bool) (stringIdx fretIdx : ℤ)
    (s : FretState) : FretState × List Event :=
  if stringIdx < 0 ∨ 4 ≤ stringIdx then (s, [])
  else if fretIdx < 0 ∨ 12 < fretIdx then (s, [])
  else
    let s1 := if s.geom.openRadius ≤ 0 then rebuildStatic s else s
    let a := mkHighlight s1.geom now stringIdx fretIdx
    ({ s1 with active := s1.active ++ [a] },
     (if hasCallback then [Event.callback a.noteName] else [])
       ++ [Event.highlightAppended a, Event.repaintRect a.bounds])

/-- The highlight pass of `paint`: a reverse-index traversal that removes
each entry whose normalised elapsed time has reached 1, modelled as a right
fold (the last entry is decided first, as in the source loop). -/
def paintPass (now : ℚ) (l : List Animation) : List Animation :=
  l.foldr (fun a acc => if 1 ≤ (now - a.t0) / a.duration then acc else a :: acc) []

/-- Model of `paint`: rebuild the static layer when its cached size does not
match the component's current size, then run the highlight pass. -/
def paintStep (now : ℚ) (s : FretState) : FretState :=
  let s1 := if s.staticLayer ≠ some (s.width, s.height) then rebuildStatic s else s
  { s1 with active := paintPass now s1.active }

/-- Model of the position resolution in `FretboardComponent::mouseDown`:
open circles first (first match wins), then the board-bounds test, then the
first containing row and the clamped fret computation. -/
def mouseDownResolve (g : Geometry) (p : PointQ) : Option (ℕ × ℤ) :=
  match (List.range 4).find? (fun s => (List.getD g.openCircles s rect0).containsP p) with
  | some s => some (s, 0)
  | none =>
    if g.boardBounds.containsP p then
      match (List.range 4).find? (fun s => (List.getD g.rowRects s rect0).containsP p) with
      | some s =>
        let xRel := p.x - g.boardBounds.x
        let cw := g.boardBounds.w / 12
        some (s, jlimitI 1 12 (⌊xRel / cw⌋ + 1))
      | none => none
    else none

/-!  Helper lemmas shared by the claim theorems. -/

theorem jlimitQ_mono (lo hi v1 v2 : ℚ) (hlh : lo ≤ hi) (hv : v1 ≤ v2) :
    jlimitQ lo hi v1 ≤ jlimitQ lo hi v2 := by
  unfold jlimitQ
  split_ifs <;> linarith

theorem jlimitQ_lb (lo hi v : ℚ) (hlh : lo ≤ hi) : lo ≤ jlimitQ lo hi v := by
  unfold jlimitQ
  split_ifs <;> linarith

theorem jlimitQ_ub (lo hi v : ℚ) (hlh : lo ≤ hi) : jlimitQ lo hi v ≤ hi := by
  unfold jlimitQ
  split_ifs <;> linarith

theorem jlimitQ_eq_self (lo hi v : ℚ) (h1 : lo ≤ v) (h2 : v ≤ hi) :
    jlimitQ lo hi v = v := by
  unfold jlimitQ
  split_ifs <;> linarith

theorem jlimitQ_eq_hi (lo hi v : ℚ) (hlh : lo ≤ hi) (h : hi ≤ v) :
    jlimitQ lo hi v = hi := by
  unfold jlimitQ
  split_ifs <;> linarith

theorem highlightOpacity_cube (elapsed duration : ℚ) :
    highlightOpacity elapsed duration = (1 - jlimitQ 0 1 (elapsed / duration)) ^ 3 := by
  unfold highlightOpacity easeOutCubic01
  ring

theorem baseMidiForString_bounds (si : ℤ) :
    28 ≤ baseMidiForString si ∧ baseMidiForString si ≤ 43 := by
  unfold baseMidiForString
  split_ifs <;> omega

theorem midiToNote_length_pos (midi : ℤ) : 0 < (midiToNote midi).length := by
  unfold midiToNote
  have hidx : (max 0 midi % 12).toNat < 12 := by omega
  have hname : ∀ k : ℕ, k < 12 → 0 < (List.getD kNoteNames k noNote).length := by decide
  simp only [String.length_append]
  have := hname _ hidx
  omega

theorem midiToNote_ne_empty (midi : ℤ) : midiToNote midi ≠ "" := by
  intro h
  have := midiToNote_length_pos midi
  rw [h] at this
  simp at this

theorem rebuildStatic_active (s : FretState) : (rebuildStatic s).active = s.active := by
  unfold rebuildStatic
  split <;> rfl

theorem rebuildStatic_size (s : FretState) :
    (rebuildStatic s).width = s.width ∧ (rebuildStatic s).height = s.height := by
  unfold rebuildStatic
  split <;> exact ⟨rfl, rfl⟩

theorem triggerNote_in_range_eq (s : FretState) (now : ℚ) (cb : Bool) (si fi : ℤ)
    (h1 : 0 ≤ si) (h2 : si ≤ 3) (h3 : 0 ≤ fi) (h4 : fi ≤ 12) :
    triggerNote now cb si fi s =
      ({ (if s.geom.openRadius ≤ 0 then rebuildStatic s else s) with
          active := (if s.geom.openRadius ≤ 0 then rebuildStatic s else s).active
            ++ [mkHighlight (if s.geom.openRadius ≤ 0 then rebuildStatic s else s).geom
                  now si fi] },
       (if cb then
          [Event.callback
            (mkHighlight (if s.geom.openRadius ≤ 0 then rebuildStatic s else s).geom
              now si fi).noteName]
        else [])
         ++ [Event.highlightAppended
               (mkHighlight (if s.geom.openRadius ≤ 0 then rebuildStatic s else s).geom
                 now si fi),
             Event.repaintRect
               (mkHighlight (if s.geom.openRadius ≤ 0 then rebuildStatic s else s).geom
                 now si fi).bounds]) := by
  unfold triggerNote
  rw [if_neg (by omega), if_neg (by omega)]

theorem condRebuild_active (s : FretState) :
    (if s.geom.openRadius ≤ 0 then rebuildStatic s else s).active = s.active := by
  split
  · exact rebuildStatic_active s
  · rfl

theorem computeGeometry_openRadius_pos (w h : ℚ) :
    0 < (computeGeometry w h).openRadius := by
  have h12 : (12 : ℚ) ≤ (computeGeometry w h).openRadius := by
    unfold computeGeometry
    exact jlimitQ_lb 12 22 _ (by norm_num)
  linarith

theorem paintPass_eq_filter (now : ℚ) (l : List Animation)
    (h : ∀ a ∈ l, 0 < a.duration) :
    paintPass now l = l.filter (fun a => decide (now - a.t0 < a.duration)) := by
  induction l with
  | nil => rfl
  | cons a l ih =>
    have ha : 0 < a.duration := h a (by simp)
    have hl : ∀ b ∈ l, 0 < b.duration := fun b hb => h b (by simp [hb])
    have hstep : paintPass now (a :: l) =
        if 1 ≤ (now - a.t0) / a.duration then paintPass now l
        else a :: paintPass now l := by
      simp only [paintPass, List.foldr_cons]
    rw [hstep, ih hl]
    by_cases hc : now - a.t0 < a.duration
    · rw [if_neg (by rw [one_le_div ha]; linarith), List.filter_cons_of_pos (by simpa using hc)]
    · rw [if_pos (by rw [one_le_div ha]; linarith), List.filter_cons_of_neg (by simpa using hc)]

theorem paintStep_active (now : ℚ) (s : FretState) :
    (paintStep now s).active = paintPass now s.active := by
  unfold paintStep
  split <;> simp [rebuildStatic_active]

/-!  Claim theorems. -/

/-- The note name exactly as the spec's words describe it: the 12-tone table
entry at `midi mod 12` together with octave `midi / 12 - 1` (for comparison
against the implementation's `midiToNote`, which first clamps to zero). -/
def specNoteName (midi : ℤ) : String :=
  List.getD kNoteNames (midi % 12).toNat noNote ++ toString (midi / 12 - 1)

/-- C2: the note name computed by `triggerNote (stringIndex, fretIndex)`
equals the chromatic name of `baseMidiForString stringIndex + fretIndex`
taken from the 12-tone table at `midi mod 12` with octave
`midi / 12 - 1`; in particular the open strings give G2, D2, A1, E1 and
fret 1 of the bottom string gives F1. -/
theorem triggerNote_noteName_correct :
    (∀ si fi : ℤ, 0 ≤ si → si ≤ 3 → 0 ≤ fi → fi ≤ 12 →
        midiToNote (baseMidiForString si + fi) = specNoteName (baseMidiForString si + fi)) ∧
    (∀ (s : FretState) (now : ℚ) (cb : Bool) (si fi : ℤ),
        0 ≤ si → si ≤ 3 → 0 ≤ fi → fi ≤ 12 →
        ∃ a : Animation,
          (triggerNote now cb si fi s).1.active = s.active ++ [a] ∧
          a.noteName = specNoteName (baseMidiForString si + fi)) ∧
    midiToNote (baseMidiForString 0 + 0) = "G2" ∧
    midiToNote (baseMidiForString 1 + 0) = "D2" ∧
    midiToNote (baseMidiForString 2 + 0) = "A1" ∧
    midiToNote (baseMidiForString 3 + 0) = "E1" ∧
    midiToNote (baseMidiForString 3 + 1) = "F1" := by
  have key : ∀ si fi : ℤ, 0 ≤ si → si ≤ 3 → 0 ≤ fi → fi ≤ 12 →
      midiToNote (baseMidiForString si + fi) = specNoteName (baseMidiForString si + fi) := by
    intro si fi _ _ h3 _
    have hb := baseMidiForString_bounds si
    unfold midiToNote specNoteName
    rw [max_eq_right (by omega)]
  refine ⟨key, ?_, by decide, by decide, by decide, by decide, by decide⟩
  intro s now cb si fi h1 h2 h3 h4
  rw [triggerNote_in_range_eq s now cb si fi h1 h2 h3 h4]
  refine ⟨mkHighlight (if s.geom.openRadius ≤ 0 then rebuildStatic s else s).geom now si fi,
    ?_, ?_⟩
  · simp [condRebuild_active]
  · rw [← key si fi h1 h2 h3 h4]
    rfl

/-- Witness for C2 at string 0, fret 5 and at the open top string. -/
theorem triggerNote_noteName_correct_witness :
    midiToNote (baseMidiForString 0 + 5) = specNoteName (baseMidiForString 0 + 5) ∧
    midiToNote (baseMidiForString 0 + 0) = "G2" :=
  ⟨triggerNote_noteName_correct.1 0 5 (by norm_num) (by norm_num) (by norm_num) (by norm_num),
   triggerNote_noteName_correct.2.2.1⟩

/-- C3 as stated is false: at elapsed time 0 the rendered alpha is 1, while
the claimed formula `1 - (1 - t / duration) ^ 3` gives 0 there (shown at the
code's fixed duration 1.8 s). -/
theorem highlightOpacity_claim_false :
    highlightOpacity 0 (9 / 5) ≠ 1 - (1 - 0 / (9 / 5) : ℚ) ^ 3 := by
  rw [highlightOpacity_cube, jlimitQ_eq_self 0 1 _ (by norm_num) (by norm_num)]
  norm_num

/-- C3 (amended): the rendered opacity is monotonically non-increasing in
elapsed time, equals 0 at `t = duration` (and beyond), and for
`0 ≤ t < duration` equals `(1 - t / duration) ^ 3`, which is
`1 - easeOutCubic01 (t / duration)` — the spec's §4 form; the §8 formula
`1 - (1 - t / duration) ^ 3` is wrong. -/
theorem highlightOpacity_fade :
    ∀ duration : ℚ, 0 < duration →
      (∀ t1 t2 : ℚ, t1 ≤ t2 →
        highlightOpacity t2 duration ≤ highlightOpacity t1 duration) ∧
      highlightOpacity duration duration = 0 ∧
      (∀ t : ℚ, duration ≤ t → highlightOpacity t duration = 0) ∧
      (∀ t : ℚ, 0 ≤ t → t < duration →
        highlightOpacity t duration = (1 - t / duration) ^ 3 ∧
        highlightOpacity t duration = 1 - easeOutCubic01 (t / duration)) := by
  intro d hd
  have hzero : ∀ t : ℚ, d ≤ t → highlightOpacity t d = 0 := by
    intro t ht
    rw [highlightOpacity_cube]
    rw [jlimitQ_eq_hi 0 1 _ (by norm_num) ((one_le_div hd).mpr ht)]
    ring
  refine ⟨?_, hzero d le_rfl, hzero, ?_⟩
  · intro t1 t2 h12
    rw [highlightOpacity_cube, highlightOpacity_cube]
    have hu : jlimitQ 0 1 (t1 / d) ≤ jlimitQ 0 1 (t2 / d) :=
      jlimitQ_mono 0 1 _ _ (by norm_num) (by gcongr)
    have hub : jlimitQ 0 1 (t2 / d) ≤ 1 := jlimitQ_ub 0 1 _ (by norm_num)
    exact pow_le_pow_left₀ (by linarith) (by linarith) 3
  · intro t h0 hlt
    have hq : jlimitQ 0 1 (t / d) = t / d :=
      jlimitQ_eq_self 0 1 _ (div_nonneg h0 (le_of_lt hd)) (le_of_lt ((div_lt_one hd).mpr hlt))
    constructor
    · rw [highlightOpacity_cube, hq]
    · rfl

/-- Witness for C3 (amended) at the code's duration 1.8 s. -/
theorem highlightOpacity_fade_witness :
    (0 : ℚ) < 9 / 5 ∧ highlightOpacity (9 / 5) (9 / 5) = 0 :=
  ⟨by norm_num, (highlightOpacity_fade (9 / 5) (by norm_num)).2.1⟩

/-- C10: `midiToNote` is total — the table index `(max 0 midi) % 12` always
lies in `[0, 11]` and the returned name is non-empty — and on the trigger
path the MIDI number lies in `[28, 55]`, so the negative clamp is the
identity there. -/
theorem midiToNote_total_safe :
    (∀ midi : ℤ, 0 ≤ max 0 midi % 12 ∧ max 0 midi % 12 < 12 ∧ midiToNote midi ≠ "") ∧
    (∀ si fi : ℤ, 0 ≤ si → si ≤ 3 → 0 ≤ fi → fi ≤ 12 →
        28 ≤ baseMidiForString si + fi ∧ baseMidiForString si + fi ≤ 55 ∧
        max 0 (baseMidiForString si + fi) = baseMidiForString si + fi) := by
  constructor
  · intro midi
    exact ⟨by omega, by omega, midiToNote_ne_empty midi⟩
  · intro si fi _ _ h3 h4
    have hb := baseMidiForString_bounds si
    exact ⟨by omega, by omega, by omega⟩

/-- Witness for C10 at a negative MIDI number and at string 3, fret 12. -/
theorem midiToNote_total_safe_witness :
    midiToNote (-5) ≠ "" ∧ max 0 (baseMidiForString 3 + 12) = baseMidiForString 3 + 12 :=
  ⟨(midiToNote_total_safe.1 (-5)).2.2,
   (midiToNote_total_safe.2 3 12 (by norm_num) (by norm_num) (by norm_num) (by norm_num)).2.2⟩

theorem rebuildStatic_run (s : FretState) (hw : 2 < s.width) (hh : 2 < s.height) :
    rebuildStatic s =
      { s with geom := computeGeometry (s.width : ℚ) (s.height : ℚ),
               staticLayer := some (s.width, s.height),
               rebuilds := s.rebuilds + 1 } := by
  unfold rebuildStatic
  rw [if_neg (by omega)]

theorem triggerNote_active_shape (s : FretState) (now : ℚ) (cb : Bool) (si fi : ℤ)
    (h1 : 0 ≤ si) (h2 : si ≤ 3) (h3 : 0 ≤ fi) (h4 : fi ≤ 12) :
    ∃ a : Animation,
      (triggerNote now cb si fi s).1.active = s.active ++ [a] ∧
      a.t0 = now ∧ a.duration = 9 / 5 ∧ a.stringIdx = si ∧ a.fretIdx = fi := by
  rw [triggerNote_in_range_eq s now cb si fi h1 h2 h3 h4]
  refine ⟨mkHighlight (if s.geom.openRadius ≤ 0 then rebuildStatic s else s).geom now si fi,
    ?_, rfl, rfl, rfl, rfl⟩
  simp [condRebuild_active]

/-- C1: for in-range `(stringIndex, fretIndex)` a `triggerNote` call appends
exactly one highlight and fires the registered callback exactly once,
synchronously, with a non-empty note name and before the append; for any
out-of-range pair it is a silent no-op: state unchanged and no events. -/
theorem triggerNote_range_contract :
    ∀ (s : FretState) (now : ℚ) (si fi : ℤ),
      ((0 ≤ si ∧ si ≤ 3 ∧ 0 ≤ fi ∧ fi ≤ 12) →
        ∃ a : Animation,
          (triggerNote now true si fi s).1.active = s.active ++ [a] ∧
          a.noteName ≠ "" ∧
          (triggerNote now true si fi s).2 =
            [Event.callback a.noteName, Event.highlightAppended a,
             Event.repaintRect a.bounds]) ∧
      (¬(0 ≤ si ∧ si ≤ 3 ∧ 0 ≤ fi ∧ fi ≤ 12) →
        triggerNote now true si fi s = (s, [])) := by
  intro s now si fi
  constructor
  · rintro ⟨h1, h2, h3, h4⟩
    rw [triggerNote_in_range_eq s now true si fi h1 h2 h3 h4]
    refine ⟨mkHighlight (if s.geom.openRadius ≤ 0 then rebuildStatic s else s).geom now si fi,
      ?_, ?_, rfl⟩
    · simp [condRebuild_active]
    · exact midiToNote_ne_empty _
  · intro hout
    unfold triggerNote
    by_cases hsi : si < 0 ∨ 4 ≤ si
    · rw [if_pos hsi]
    · rw [if_neg hsi, if_pos (by omega)]

/-- Witness for C1: an in-range call at string 0, fret 0 on a fresh 980×340
component, and an out-of-range call at fret 13. -/
theorem triggerNote_range_contract_witness :
    (0 ≤ (0 : ℤ) ∧ (0 : ℤ) ≤ 3 ∧ 0 ≤ (0 : ℤ) ∧ (0 : ℤ) ≤ 12) ∧
    (∃ a : Animation,
      (triggerNote 0 true 0 0 (initState 980 340)).1.active
        = (initState 980 340).active ++ [a] ∧
      a.noteName ≠ "" ∧
      (triggerNote 0 true 0 0 (initState 980 340)).2 =
        [Event.callback a.noteName, Event.highlightAppended a,
         Event.repaintRect a.bounds]) ∧
    triggerNote 0 true 0 13 (initState 980 340) = (initState 980 340, []) :=
  ⟨by decide,
   (triggerNote_range_contract (initState 980 340) 0 0 0).1 (by decide),
   (triggerNote_range_contract (initState 980 340) 0 0 13).2 (by decide)⟩

/-- C5: after a paint at time `now`, the active set is exactly the set of
highlights whose elapsed time is strictly below their duration, independent
of insertion order (the reverse-order removal pass equals a filter); a
highlight born at `t0` with duration `D` is still present at `t0 + ε` for
`0 < ε < D` and absent at any paint time `≥ t0 + D`. -/
theorem paintStep_expiration :
    ∀ (s : FretState) (now : ℚ),
      (∀ a ∈ s.active, 0 < a.duration) →
      (paintStep now s).active
        = s.active.filter (fun a => decide (now - a.t0 < a.duration)) ∧
      (∀ a ∈ s.active, ∀ ε : ℚ, 0 < ε → ε < a.duration →
        a ∈ (paintStep (a.t0 + ε) s).active) ∧
      (∀ a ∈ s.active, ∀ t : ℚ, a.t0 + a.duration ≤ t →
        a ∉ (paintStep t s).active) := by
  intro s now h
  have hfil : ∀ t : ℚ, (paintStep t s).active
      = s.active.filter (fun a => decide (t - a.t0 < a.duration)) := by
    intro t
    rw [paintStep_active, paintPass_eq_filter t s.active h]
  refine ⟨hfil now, ?_, ?_⟩
  · intro a ha ε hε hεd
    rw [hfil]
    refine List.mem_filter.mpr ⟨ha, ?_⟩
    simp only [decide_eq_true_eq]
    linarith
  · intro a ha t ht
    rw [hfil]
    intro hmem
    have hkeep := (List.mem_filter.mp hmem).2
    simp only [decide_eq_true_eq] at hkeep
    linarith

/-- A concrete one-highlight state with a valid static layer, used by the
C5 witness. -/
def paintWitnessState : FretState :=
  { width := 980, height := 340, geom := computeGeometry 980 340,
    staticLayer := some (980, 340),
    active := [mkHighlight (computeGeometry 980 340) 0 0 0], rebuilds := 1 }

/-- Witness for C5: a paint at time 1 on a one-highlight state keeps the
still-fading highlight (its duration 1.8 has not elapsed). -/
theorem paintStep_expiration_witness :
    (∀ a ∈ paintWitnessState.active, 0 < a.duration) ∧
    (paintStep 1 paintWitnessState).active
      = paintWitnessState.active.filter (fun a => decide (1 - a.t0 < a.duration)) :=
  ⟨by with_unfolding_all decide,
   (paintStep_expiration paintWitnessState 1 (by with_unfolding_all decide)).1⟩

/-- C6 as stated is false: `resized` calls `rebuildStatic` unconditionally,
so invoking it twice in succession at the same unchanged 980×340 size
performs two static-layer rebuilds, not at most one. -/
theorem resized_twice_rebuilds :
    (resized (resized (initState 980 340))).rebuilds = 2 ∧
    ¬ (resized (resized (initState 980 340))).rebuilds ≤ 1 := by
  constructor <;> decide

/-- C6 (amended): the second `resized` call at an unchanged non-degenerate
size performs a second rebuild, but the rebuild is a pure function of the
size, so it leaves the geometry and the static-layer size key unchanged;
the paint path rebuilds only on a size mismatch, so a paint after `resized`
performs no further rebuild. -/
theorem resized_idempotent_geometry :
    ∀ (s : FretState) (now : ℚ), 2 < s.width → 2 < s.height →
      (resized (resized s)).geom = (resized s).geom ∧
      (resized (resized s)).staticLayer = (resized s).staticLayer ∧
      (resized s).geom = computeGeometry (s.width : ℚ) (s.height : ℚ) ∧
      (resized (resized s)).rebuilds = (resized s).rebuilds + 1 ∧
      (paintStep now (resized s)).rebuilds = (resized s).rebuilds := by
  intro s now hw hh
  have h1 : resized s =
      { s with geom := computeGeometry (s.width : ℚ) (s.height : ℚ),
               staticLayer := some (s.width, s.height),
               rebuilds := s.rebuilds + 1 } := rebuildStatic_run s hw hh
  have h2 : resized (resized s) =
      { s with geom := computeGeometry (s.width : ℚ) (s.height : ℚ),
               staticLayer := some (s.width, s.height),
               rebuilds := s.rebuilds + 1 + 1 } := by
    rw [h1]
    exact rebuildStatic_run _ hw hh
  rw [h2, h1]
  refine ⟨rfl, rfl, rfl, rfl, ?_⟩
  simp [paintStep]

/-- Witness for C6 (amended) on a fresh 980×340 component. -/
theorem resized_idempotent_geometry_witness :
    (2 : ℤ) < 980 ∧
    (resized (resized (initState 980 340))).geom = (resized (initState 980 340)).geom :=
  ⟨by decide, (resized_idempotent_geometry (initState 980 340) 0 (by decide) (by decide)).1⟩

/-- C7 as stated is false: at the degenerate start size 0×0 the on-demand
rebuild is skipped entirely, yet the in-range call still appends a
highlight computed from the all-zero geometry (`openRadius = 0`). -/
theorem triggerNote_zero_geometry :
    (triggerNote 0 true 0 0 (initState 0 0)).1.active ≠ [] ∧
    (triggerNote 0 true 0 0 (initState 0 0)).1.geom.openRadius = 0 := by
  constructor <;> decide

/-- C7 (amended): for a non-degenerate size the on-demand rebuild does run:
an in-range `triggerNote` before any layout pass leaves the geometry equal
to that of the current size with a positive `openRadius` and appends its
single highlight; at degenerate sizes the rebuild is skipped and the
highlight is built from the prior (possibly zero) geometry. -/
theorem triggerNote_on_demand_geometry :
    ∀ (w h : ℤ) (now : ℚ) (cb : Bool) (si fi : ℤ),
      2 < w → 2 < h → 0 ≤ si → si ≤ 3 → 0 ≤ fi → fi ≤ 12 →
      (triggerNote now cb si fi (initState w h)).1.geom
          = computeGeometry (w : ℚ) (h : ℚ) ∧
      0 < (triggerNote now cb si fi (initState w h)).1.geom.openRadius ∧
      (triggerNote now cb si fi (initState w h)).1.active.length = 1 := by
  intro w h now cb si fi hw hh h1 h2 h3 h4
  rw [triggerNote_in_range_eq _ now cb si fi h1 h2 h3 h4]
  have hcond : (initState w h).geom.openRadius ≤ 0 := le_refl 0
  rw [if_pos hcond, rebuildStatic_run (initState w h) hw hh]
  refine ⟨rfl, ?_, rfl⟩
  exact computeGeometry_openRadius_pos _ _

/-- Witness for C7 (amended): an in-range call on a fresh 980×340 component
rebuilds on demand and appends one highlight over positive geometry. -/
theorem triggerNote_on_demand_geometry_witness :
    (2 : ℤ) < 980 ∧
    0 < (triggerNote 0 true 0 0 (initState 980 340)).1.geom.openRadius :=
  ⟨by decide,
   (triggerNote_on_demand_geometry 980 340 0 true 0 0 (by decide) (by decide)
      (by decide) (by decide) (by decide) (by decide)).2.1⟩

/-- C9: triggering the same in-range position twice before the first
highlight expires appends two independent records with their own start
times, leaves every earlier highlight unchanged, and a paint at the second
instant keeps both new highlights. -/
theorem triggerNote_additive :
    ∀ (s : FretState) (si fi : ℤ) (t1 t2 : ℚ) (cb : Bool),
      0 ≤ si → si ≤ 3 → 0 ≤ fi → fi ≤ 12 →
      (∀ a ∈ s.active, 0 < a.duration) →
      t1 ≤ t2 → t2 < t1 + 9 / 5 →
      ∃ a1 a2 : Animation,
        a1.t0 = t1 ∧ a2.t0 = t2 ∧ a1.duration = 9 / 5 ∧ a2.duration = 9 / 5 ∧
        a1.stringIdx = si ∧ a1.fretIdx = fi ∧
        a2.stringIdx = si ∧ a2.fretIdx = fi ∧
        (triggerNote t2 cb si fi (triggerNote t1 cb si fi s).1).1.active
          = s.active ++ [a1, a2] ∧
        (paintStep t2 (triggerNote t2 cb si fi (triggerNote t1 cb si fi s).1).1).active
          = s.active.filter (fun a => decide (t2 - a.t0 < a.duration)) ++ [a1, a2] := by
  intro s si fi t1 t2 cb h1 h2 h3 h4 hdur h12 hexp
  obtain ⟨a1, e1, ht1, hd1, hs1, hf1⟩ :=
    triggerNote_active_shape s t1 cb si fi h1 h2 h3 h4
  obtain ⟨a2, e2, ht2, hd2, hs2, hf2⟩ :=
    triggerNote_active_shape (triggerNote t1 cb si fi s).1 t2 cb si fi h1 h2 h3 h4
  have hact2 : (triggerNote t2 cb si fi (triggerNote t1 cb si fi s).1).1.active
      = s.active ++ [a1, a2] := by
    rw [e2, e1]
    simp
  refine ⟨a1, a2, ht1, ht2, hd1, hd2, hs1, hf1, hs2, hf2, hact2, ?_⟩
  have hall : ∀ a ∈ (triggerNote t2 cb si fi (triggerNote t1 cb si fi s).1).1.active,
      0 < a.duration := by
    rw [hact2]
    intro a ha
    rcases List.mem_append.mp ha with hmem | hmem
    · exact hdur a hmem
    · simp only [List.mem_cons, List.mem_singleton, List.not_mem_nil, or_false] at hmem
      rcases hmem with rfl | rfl
      · rw [hd1]; norm_num
      · rw [hd2]; norm_num
  rw [paintStep_active, paintPass_eq_filter _ _ hall, hact2, List.filter_append]
  have hk1 : decide (t2 - a1.t0 < a1.duration) = true := by
    rw [ht1, hd1]
    simp only [decide_eq_true_eq]
    linarith
  have hk2 : decide (t2 - a2.t0 < a2.duration) = true := by
    rw [ht2, hd2]
    simp only [decide_eq_true_eq]
    linarith
  rw [List.filter_cons_of_pos (by exact hk1), List.filter_cons_of_pos (by exact hk2)]
  rfl

/-- Witness for C9: two triggers of (0,0) at times 0 and 1 on a fresh
980×340 component. -/
theorem triggerNote_additive_witness :
    (0 : ℚ) ≤ 1 ∧
    (∃ a1 a2 : Animation,
      a1.t0 = 0 ∧ a2.t0 = 1 ∧ a1.duration = 9 / 5 ∧ a2.duration = 9 / 5 ∧
      a1.stringIdx = 0 ∧ a1.fretIdx = 0 ∧ a2.stringIdx = 0 ∧ a2.fretIdx = 0 ∧
      (triggerNote 1 true 0 0 (triggerNote 0 true 0 0 (initState 980 340)).1).1.active
        = (initState 980 340).active ++ [a1, a2] ∧
      (paintStep 1 (triggerNote 1 true 0 0
          (triggerNote 0 true 0 0 (initState 980 340)).1).1).active
        = (initState 980 340).active.filter (fun a => decide (1 - a.t0 < a.duration))
            ++ [a1, a2]) :=
  ⟨by norm_num,
   triggerNote_additive (initState 980 340) 0 0 0 1 true (by decide) (by decide)
     (by decide) (by decide) (by decide) (by norm_num) (by norm_num)⟩

/-- C4: pointer resolution order — open-circle targets first (first match
wins, even for targets outside the board rectangle), then the board-bounds
test, then the first containing string row with the clamped fret formula
`floor ((x - boardLeft) / cellWidth) + 1`; concretely, at 980×340 the point
(400, 60) lies in string row 0 and the 5th fret cell and resolves to (0, 5),
and the centre of the third string's open target resolves to (2, 0) although
it lies outside the board rectangle. -/
theorem mouseDownResolve_order :
    (∀ (g : Geometry) (p : PointQ) (s : ℕ),
        (List.range 4).find? (fun i => (List.getD g.openCircles i rect0).containsP p)
          = some s →
        mouseDownResolve g p = some (s, 0)) ∧
    (∀ (g : Geometry) (p : PointQ),
        (List.range 4).find? (fun i => (List.getD g.openCircles i rect0).containsP p)
          = none →
        g.boardBounds.containsP p = false →
        mouseDownResolve g p = none) ∧
    (∀ (g : Geometry) (p : PointQ) (s : ℕ),
        (List.range 4).find? (fun i => (List.getD g.openCircles i rect0).containsP p)
          = none →
        g.boardBounds.containsP p = true →
        (List.range 4).find? (fun i => (List.getD g.rowRects i rect0).containsP p)
          = some s →
        mouseDownResolve g p =
          some (s, jlimitI 1 12 (⌊(p.x - g.boardBounds.x) / (g.boardBounds.w / 12)⌋ + 1))) ∧
    (List.getD (computeGeometry 980 340).rowRects 0 rect0).containsP ⟨400, 60⟩ = true ∧
    (computeGeometry 980 340).boardBounds.containsP ⟨400, 60⟩ = true ∧
    mouseDownResolve (computeGeometry 980 340) ⟨400, 60⟩ = some (0, 5) ∧
    mouseDownResolve (computeGeometry 980 340)
        ((List.getD (computeGeometry 980 340).openCircles 2 rect0).centre) = some (2, 0) ∧
    (computeGeometry 980 340).boardBounds.containsP
        ((List.getD (computeGeometry 980 340).openCircles 2 rect0).centre) = false := by
  refine ⟨?_, ?_, ?_, ?_, ?_, ?_, ?_, ?_⟩
  · intro g p s hfind
    unfold mouseDownResolve
    rw [hfind]
  · intro g p hnone hboard
    unfold mouseDownResolve
    rw [hnone, hboard]
    simp
  · intro g p s hnone hboard hrow
    unfold mouseDownResolve
    rw [hnone, hboard, hrow]
    simp
  · with_unfolding_all decide
  · with_unfolding_all decide
  · with_unfolding_all decide
  · with_unfolding_all decide
  · with_unfolding_all decide

/-- Witness for C4: the centre of string 0's open target makes the step-1
search succeed, and resolution then yields (0, 0). -/
theorem mouseDownResolve_order_witness :
    mouseDownResolve (computeGeometry 980 340)
        ((List.getD (computeGeometry 980 340).openCircles 0 rect0).centre) = some (0, 0) :=
  mouseDownResolve_order.1 (computeGeometry 980 340)
    ((List.getD (computeGeometry 980 340).openCircles 0 rect0).centre) 0
    (by with_unfolding_all decide)

/-- C8 as stated is false: the top-left corner of the third string's open
target bounding box passes the step-1 containment test (and resolves to
(2, 0)) although its squared distance from the target's centre exceeds
`openRadius ^ 2` — the hit target is the bounding square, not the circle. -/
theorem openTarget_corner_hit :
    (List.getD (computeGeometry 980 340).openCircles 2 rect0).containsP
        ⟨(List.getD (computeGeometry 980 340).openCircles 2 rect0).x,
         (List.getD (computeGeometry 980 340).openCircles 2 rect0).y⟩ = true ∧
    mouseDownResolve (computeGeometry 980 340)
        ⟨(List.getD (computeGeometry 980 340).openCircles 2 rect0).x,
         (List.getD (computeGeometry 980 340).openCircles 2 rect0).y⟩ = some (2, 0) ∧
    ((List.getD (computeGeometry 980 340).openCircles 2 rect0).x
        - (List.getD (computeGeometry 980 340).openCircles 2 rect0).centre.x) ^ 2
      + ((List.getD (computeGeometry 980 340).openCircles 2 rect0).y
        - (List.getD (computeGeometry 980 340).openCircles 2 rect0).centre.y) ^ 2
      > (computeGeometry 980 340).openRadius ^ 2 := by
  refine ⟨?_, ?_, ?_⟩ <;> with_unfolding_all decide

theorem openCircle_containsP (bb : RectQ) (R : ℚ) (s : ℕ) (p : PointQ) :
    ((openCircle bb R s).containsP p = true) ↔
      ((openCircle bb R s).centre.x - R ≤ p.x ∧ p.x < (openCircle bb R s).centre.x + R ∧
       (openCircle bb R s).centre.y - R ≤ p.y ∧ p.y < (openCircle bb R s).centre.y + R) := by
  unfold openCircle
  simp only [RectQ.containsP, RectQ.centre, decide_eq_true_eq]
  constructor <;> rintro ⟨u1, u2, u3, u4⟩ <;>
    refine ⟨by linarith, by linarith, by linarith, by linarith⟩

/-- C8 (amended): each open-string hit target used by step (1) of pointer
resolution is the axis-aligned bounding square of the drawn circle: a point
is contained iff each coordinate is within `openRadius` of the target's
centre (inclusive on the left/top edges, exclusive on the right/bottom), so
a corner point of the box outside the inscribed circle still triggers the
open string. -/
theorem openTarget_square_characterisation :
    ∀ (w h : ℚ) (s : ℕ) (p : PointQ), s < 4 →
      ((List.getD (computeGeometry w h).openCircles s rect0).containsP p = true ↔
        ((List.getD (computeGeometry w h).openCircles s rect0).centre.x
            - (computeGeometry w h).openRadius ≤ p.x ∧
         p.x < (List.getD (computeGeometry w h).openCircles s rect0).centre.x
            + (computeGeometry w h).openRadius ∧
         (List.getD (computeGeometry w h).openCircles s rect0).centre.y
            - (computeGeometry w h).openRadius ≤ p.y ∧
         p.y < (List.getD (computeGeometry w h).openCircles s rect0).centre.y
            + (computeGeometry w h).openRadius)) := by
  intro w h s p hs
  have hget : List.getD (computeGeometry w h).openCircles s rect0
      = openCircle (computeGeometry w h).boardBounds (computeGeometry w h).openRadius s := by
    interval_cases s <;> rfl
  rw [hget]
  exact openCircle_containsP _ _ _ _

/-- Witness for C8 (amended): at 980×340 the centre of the first open
target satisfies the square characterisation. -/
theorem openTarget_square_characterisation_witness :
    (List.getD (computeGeometry 980 340).openCircles 0 rect0).containsP
        ((List.getD (computeGeometry 980 340).openCircles 0 rect0).centre) = true :=
  (openTarget_square_characterisation 980 340 0
      ((List.getD (computeGeometry 980 340).openCircles 0 rect0).centre)
      (by decide)).mpr
    (by with_unfolding_all decide)

end BassAid
